import Mathlib

/-!
Verification development for the coffeejournal backend
(`src/coffeejournal`): a shallow embedding of the JSON-file repository
layer (`repositories/json_repository.py`), the lookup usage /
reference-rewrite endpoints (`lookups.py`), the brew-session validation
logic (`api/batches.py`), and the schema migrations
(`migrations/v1_0_to_v1_1.py`, `migrations/v1_1_to_v1_2.py`), together
with theorems about the properties stated in the specification.

Machine integers are modelled as `Nat`/`Int` (Python integers are
unbounded), Python `None`-able values as `Option`, Python dict-shaped
records as Lean structures holding the fields the embedded code touches,
and tables (one JSON array file per entity kind) as Lean lists.
Raised exceptions / HTTP error returns are modelled with `Except`.
-/

namespace CoffeeJournal

/-! ## Python string normalization

`json_repository.py` normalizes lookup names with
`name.strip().lower()`.  The data in this system is ASCII, so
`str.lower` is per-character lowercasing and `str.strip` removes
leading/trailing whitespace. -/

/-- Python `str.strip()`: drop leading and trailing whitespace. -/
def pyStrip (s : String) : String :=
  String.mk (((s.toList.dropWhile Char.isWhitespace).reverse.dropWhile
    Char.isWhitespace).reverse)

/-- Python `str.lower()` (ASCII data): lowercase each character. -/
def pyLower (s : String) : String :=
  String.mk (s.toList.map Char.toLower)

/-- The normalization `name.strip().lower()` used by `find_by_name`. -/
def normalizeName (s : String) : String :=
  pyLower (pyStrip s)

/-! ## Lookup records and the generic repository

`JSONRepositoryBase` stores a flat list of records in one file per
table; `JSONLookupRepository` specializes it for the ten lookup kinds.
A lookup record here carries the fields the embedded code reads:
`id`, `name`, `is_default` (Python `item.get('is_default') is True`
treats a missing key as `False`, so a plain `Bool` is faithful),
and the audit timestamps.  Timestamps are opaque strings threaded in
as a `now` parameter. -/

structure LookupRec where
  id : Nat
  name : String
  is_default : Bool := false
  created_at : String := ""
  updated_at : String := ""
deriving Repr, DecidableEq

/-- `JSONRepositoryBase._get_next_id`: `max(item['id']) + 1`, or `1`
for an empty table.  Generic over the record type via `getId`. -/
def get_next_id {α : Type} (getId : α → Nat) (data : List α) : Nat :=
  match data with
  | [] => 1
  | _ => (data.map getId).foldl max 0 + 1

/-- `JSONRepositoryBase.find_by_id`: first record with the given id. -/
def find_by_id {α : Type} (getId : α → Nat) (data : List α) (id : Nat) :
    Option α :=
  data.find? (fun item => getId item == id)

/-- `JSONRepositoryBase.delete`: keep every record whose id differs. -/
def repo_delete {α : Type} (getId : α → Nat) (data : List α) (id : Nat) :
    List α :=
  data.filter (fun item => getId item != id)

/-- `JSONRepositoryBase.create` for a lookup table: copy the supplied
fields (`name` is what `get_or_create` passes), assign the next id, and
stamp both audit timestamps with `now`; the new record is appended. -/
def lookup_create (data : List LookupRec) (name : String) (now : String) :
    LookupRec × List LookupRec :=
  let new_item : LookupRec :=
    { id := get_next_id (·.id) data, name := name, is_default := false,
      created_at := now, updated_at := now }
  (new_item, data ++ [new_item])

/-- `JSONRepositoryBase.update` for a lookup table: replace the first
record carrying `id` with the supplied field set `d`, forcing the id,
carrying `created_at` over from the stored record, refreshing
`updated_at` to `now`.  Returns `(none, data)` when the id is absent:
the source returns `None` without reaching `_write_data`, so the stored
table is untouched. -/
def lookup_update (data : List LookupRec) (id : Nat) (d : LookupRec)
    (now : String) : Option LookupRec × List LookupRec :=
  match data with
  | [] => (none, [])
  | item :: rest =>
    if item.id = id then
      let updated_item : LookupRec :=
        { d with id := id, created_at := item.created_at, updated_at := now }
      (some updated_item, updated_item :: rest)
    else
      let (res, rest') := lookup_update rest id d now
      (res, item :: rest')

/-! ## Lookup-specific operations (`JSONLookupRepository`) -/

/-- `find_by_name`: case-insensitive, whitespace-trimmed first match;
empty input and records with an empty/missing name never match. -/
def find_by_name (data : List LookupRec) (name : String) :
    Option LookupRec :=
  if name = "" then none
  else
    data.find? (fun item =>
      (!(item.name == "")) && (normalizeName item.name == normalizeName name))

/-- `get_or_create`: return the existing match, else create a record
with the given (unnormalized) name. -/
def get_or_create (data : List LookupRec) (name : String) (now : String) :
    LookupRec × List LookupRec :=
  match find_by_name data name with
  | some existing => (existing, data)
  | none => lookup_create data name now

/-- `set_default`: one pass sets `is_default` on the record carrying
`item_id` and clears it on any other record that had it set; raises
(`Except.error`) when `item_id` is not found. -/
def set_default (data : List LookupRec) (item_id : Nat) :
    Except String (List LookupRec) :=
  let data' := data.map (fun item =>
    if item.id = item_id then { item with is_default := true }
    else if item.is_default then { item with is_default := false }
    else item)
  if data.any (fun item => item.id == item_id) then Except.ok data'
  else Except.error "Item with id not found"

/-- The stored table after a `set_default` call: on success the
rewritten table is written back; on the not-found error the exception
is raised before `_write_data`, and since `_read_data` parses the file
afresh on every call, the in-memory mutations never reach the file —
the stored table stays as it was. -/
def set_default_store (data : List LookupRec) (item_id : Nat) :
    List LookupRec :=
  match set_default data item_id with
  | Except.ok data' => data'
  | Except.error _ => data

/-! ## Products and brew sessions

`products.json` records carry both an id-valued reference
(`roaster_id`, `country_id`) and legacy name-valued reference fields
(`country`, `decaf_method`) — `api/products.py` writes both.  The
`country` field is read by `lookups.py` with
`product.get('country', [])` and may hold a list of names, a bare
name, or null/absent, so it is modelled by a small sum type
(`.clist []` doubling as the absent-key default). -/

inductive CountryRef where
  | cnull : CountryRef
  | cscalar (s : String) : CountryRef
  | clist (l : List String) : CountryRef
deriving Repr, DecidableEq

/-- An id-valued reference field read with `.get(key, [])` that may
hold a list of ids, a bare id, or null (`bean_type_id` on products);
`.rlist []` doubles as the absent-key default. -/
inductive IdRef where
  | rnull : IdRef
  | rscalar (n : Nat) : IdRef
  | rlist (l : List Nat) : IdRef
deriving Repr, DecidableEq

structure Product where
  id : Nat
  roaster_id : Option Nat := none
  bean_type_id : IdRef := IdRef.rlist []
  country_id : Option Nat := none
  country : CountryRef := CountryRef.clist []
  decaf_method : Option String := none
  created_at : String := ""
  updated_at : String := ""
deriving Repr, DecidableEq

structure BrewSession where
  id : Nat
  brew_method_id : Option Nat := none
  recipe_id : Option Nat := none
  grinder_id : Option Nat := none
  filter_id : Option Nat := none
  kettle_id : Option Nat := none
  scale_id : Option Nat := none
  sweetness : Option Int := none
  acidity : Option Int := none
  bitterness : Option Int := none
  body : Option Int := none
  aroma : Option Int := none
  flavor_profile_match : Option Int := none
  score : Option ℚ := none
  created_at : String := ""
  updated_at : String := ""
deriving Repr, DecidableEq

/-- `JSONRepositoryBase.update`, generic over the record type (the
method is inherited unchanged by every repository subclass): replace
the first record whose id matches with `stamp d old` — the supplied
field set with the id forced, `created_at` carried over from the old
record and `updated_at` refreshed.  Absent ids yield `(none, data)`
with no write. -/
def repo_update_g {α : Type} (getId : α → Nat) (stamp : α → α → α) :
    List α → Nat → α → Option α × List α
  | [], _, _ => (none, [])
  | item :: rest, id, d =>
    if getId item = id then
      (some (stamp d item), stamp d item :: rest)
    else
      let r := repo_update_g getId stamp rest id d
      (r.1, item :: r.2)

/-- The id/audit stamping `update` applies to a product record. -/
def product_stamp (now : String) (d old : Product) : Product :=
  { d with id := old.id, created_at := old.created_at, updated_at := now }

/-- The id/audit stamping `update` applies to a brew-session record. -/
def session_stamp (now : String) (d old : BrewSession) : BrewSession :=
  { d with id := old.id, created_at := old.created_at, updated_at := now }

/-- `JSONRepositoryBase.update` on the products table. -/
def product_update (data : List Product) (id : Nat) (d : Product)
    (now : String) : Option Product × List Product :=
  repo_update_g (·.id) (product_stamp now) data id d

/-- `JSONRepositoryBase.update` on the brew-sessions table. -/
def session_update (data : List BrewSession) (id : Nat) (d : BrewSession)
    (now : String) : Option BrewSession × List BrewSession :=
  repo_update_g (·.id) (session_stamp now) data id d

/-! ## Usage endpoints (`lookups.py`)

Each `/…/<id>/usage` endpoint 404s when the lookup id is absent, else
returns `{in_use, usage_count, usage_type}`.  The roaster and grinder
checks compare the dependent record's id field against the lookup id;
the country and decaf-method checks compare the dependent record's
legacy name field against the lookup record's `name`. -/

structure UsageResult where
  in_use : Bool
  usage_count : Nat
deriving Repr, DecidableEq

/-- `check_roaster_usage`: count products with
`p.get('roaster_id') == roaster_id`. -/
def check_roaster_usage (roasters : List LookupRec)
    (products : List Product) (roaster_id : Nat) :
    Except String UsageResult :=
  match find_by_id (·.id) roasters roaster_id with
  | none => Except.error "Roaster not found"
  | some _ =>
    let usage_count := products.countP (fun p => p.roaster_id == some roaster_id)
    Except.ok { in_use := usage_count > 0, usage_count := usage_count }

/-- The per-product test in `check_country_usage`: list fields match by
membership of the country's *name*, a bare value by equality with the
name, and anything else (including null) matches nothing. -/
def countryNameMatch (cname : String) (p : Product) : Bool :=
  match p.country with
  | CountryRef.clist l => l.contains cname
  | CountryRef.cscalar s => s == cname
  | CountryRef.cnull => false

/-- `check_country_usage`: count products whose `country` field matches
the looked-up record's `name`. -/
def check_country_usage (countries : List LookupRec)
    (products : List Product) (country_id : Nat) :
    Except String UsageResult :=
  match find_by_id (·.id) countries country_id with
  | none => Except.error "Country not found"
  | some country =>
    let usage_count := products.countP (countryNameMatch country.name)
    Except.ok { in_use := usage_count > 0, usage_count := usage_count }

/-- `check_decaf_method_usage`: count products with
`p.get('decaf_method') == decaf_method['name']`. -/
def check_decaf_method_usage (decaf_methods : List LookupRec)
    (products : List Product) (decaf_method_id : Nat) :
    Except String UsageResult :=
  match find_by_id (·.id) decaf_methods decaf_method_id with
  | none => Except.error "Decaf method not found"
  | some dm =>
    let usage_count := products.countP (fun p => p.decaf_method == some dm.name)
    Except.ok { in_use := usage_count > 0, usage_count := usage_count }

/-- The per-product test in `check_bean_type_usage`: the `bean_type_id`
field matches by list-membership of the looked-up *id*, a bare value by
equality with the id, and anything else (including null) matches
nothing. -/
def beanTypeIdMatch (bean_type_id : Nat) (p : Product) : Bool :=
  match p.bean_type_id with
  | IdRef.rlist l => l.contains bean_type_id
  | IdRef.rscalar n => n == bean_type_id
  | IdRef.rnull => false

/-- `check_bean_type_usage`: count products whose `bean_type_id` field
holds the looked-up id (scalar or list membership). -/
def check_bean_type_usage (bean_types : List LookupRec)
    (products : List Product) (bean_type_id : Nat) :
    Except String UsageResult :=
  match find_by_id (·.id) bean_types bean_type_id with
  | none => Except.error "Bean type not found"
  | some _ =>
    let usage_count := products.countP (beanTypeIdMatch bean_type_id)
    Except.ok { in_use := usage_count > 0, usage_count := usage_count }

/-- `check_brew_method_usage`: count sessions with
`s.get('brew_method_id') == brew_method_id`. -/
def check_brew_method_usage (brew_methods : List LookupRec)
    (sessions : List BrewSession) (brew_method_id : Nat) :
    Except String UsageResult :=
  match find_by_id (·.id) brew_methods brew_method_id with
  | none => Except.error "Brew method not found"
  | some _ =>
    let usage_count :=
      sessions.countP (fun s => s.brew_method_id == some brew_method_id)
    Except.ok { in_use := usage_count > 0, usage_count := usage_count }

/-- `check_recipe_usage`: count sessions with
`s.get('recipe_id') == recipe_id`. -/
def check_recipe_usage (recipes : List LookupRec)
    (sessions : List BrewSession) (recipe_id : Nat) :
    Except String UsageResult :=
  match find_by_id (·.id) recipes recipe_id with
  | none => Except.error "Recipe not found"
  | some _ =>
    let usage_count :=
      sessions.countP (fun s => s.recipe_id == some recipe_id)
    Except.ok { in_use := usage_count > 0, usage_count := usage_count }

/-- `check_grinder_usage`: count sessions with
`s.get('grinder_id') == grinder_id`. -/
def check_grinder_usage (grinders : List LookupRec)
    (sessions : List BrewSession) (grinder_id : Nat) :
    Except String UsageResult :=
  match find_by_id (·.id) grinders grinder_id with
  | none => Except.error "Grinder not found"
  | some _ =>
    let usage_count :=
      sessions.countP (fun s => s.grinder_id == some grinder_id)
    Except.ok { in_use := usage_count > 0, usage_count := usage_count }

/-- `check_filter_usage`: count sessions with
`s.get('filter_id') == filter_id`. -/
def check_filter_usage (filters : List LookupRec)
    (sessions : List BrewSession) (filter_id : Nat) :
    Except String UsageResult :=
  match find_by_id (·.id) filters filter_id with
  | none => Except.error "Filter not found"
  | some _ =>
    let usage_count :=
      sessions.countP (fun s => s.filter_id == some filter_id)
    Except.ok { in_use := usage_count > 0, usage_count := usage_count }

/-- `check_kettle_usage`: count sessions with
`s.get('kettle_id') == kettle_id`. -/
def check_kettle_usage (kettles : List LookupRec)
    (sessions : List BrewSession) (kettle_id : Nat) :
    Except String UsageResult :=
  match find_by_id (·.id) kettles kettle_id with
  | none => Except.error "Kettle not found"
  | some _ =>
    let usage_count :=
      sessions.countP (fun s => s.kettle_id == some kettle_id)
    Except.ok { in_use := usage_count > 0, usage_count := usage_count }

/-- `check_scale_usage`: count sessions with
`s.get('scale_id') == scale_id`. -/
def check_scale_usage (scales : List LookupRec)
    (sessions : List BrewSession) (scale_id : Nat) :
    Except String UsageResult :=
  match find_by_id (·.id) scales scale_id with
  | none => Except.error "Scale not found"
  | some _ =>
    let usage_count :=
      sessions.countP (fun s => s.scale_id == some scale_id)
    Except.ok { in_use := usage_count > 0, usage_count := usage_count }

/-- Modelled from the spec (§4.4): the usage count C1 asserts — the
number of dependent records whose relevant *ID* field equals the lookup
id, counting a scalar field equal to it or list-membership for
list-valued fields.  For the Country kind the relevant ID field on a
product is the scalar `country_id` (§3). -/
def spec_country_usage_count (products : List Product) (country_id : Nat) :
    Nat :=
  products.countP (fun p => p.country_id == some country_id)

/-! ## Reference rewriting (`update_references` endpoints)

Each endpoint 404s when the lookup id is absent; otherwise it iterates
over the snapshot returned by `find_all()`, rewrites matching dependent
records, and saves each one through the repository `update` (which
refreshes `updated_at`).  Python truthiness of `replacement_id` (`and
replacement_id`) treats both `None` and `0` as false. -/

/-- Python truthiness of an optional integer id. -/
def pyTruthyNat (o : Option Nat) : Bool :=
  match o with
  | some n => n != 0
  | none => false

/-- The `for entity in snapshot:` loop shared (by copy-paste in the
source) by every `update_…_references` endpoint: when the per-entity
rewrite applies (`some`), the rewritten entity is saved back into the
store through the repository `update` (abstracted as `save store
entity rewritten`) and counted; otherwise the entity is skipped. -/
def ref_update_loop {α : Type} (save : List α → α → α → List α)
    (rewrite : α → Option α) :
    List α → List α → Nat → Nat × List α
  | [], store, updated_count => (updated_count, store)
  | x :: xs, store, updated_count =>
    match rewrite x with
    | some x' =>
      ref_update_loop save rewrite xs (save store x x') (updated_count + 1)
    | none => ref_update_loop save rewrite xs store updated_count

/-- Per-product rewrite of `update_roaster_references`: every product
referencing the roaster is persisted and counted (even under an
unknown action); `replace` stores `replacement_id` without checking
that it exists. -/
def roaster_ref_rewrite (roaster_id : Nat) (action : String)
    (replacement_id : Option Nat) (p : Product) : Option Product :=
  if p.roaster_id == some roaster_id then
    some
      (if action == "remove" then { p with roaster_id := none }
       else if action == "replace" && pyTruthyNat replacement_id then
         { p with roaster_id := replacement_id }
       else p)
  else none

/-- Saving one rewritten product back via
`product_repository.update(product['id'], product)`. -/
def product_save (now : String) (store : List Product) (p p' : Product) :
    List Product :=
  (product_update store p.id p' now).2

/-- Saving one rewritten brew session back via
`brew_session_repository.update(session['id'], session)`. -/
def session_save (now : String) (store : List BrewSession)
    (s s' : BrewSession) : List BrewSession :=
  (session_update store s.id s' now).2

/-- `update_roaster_references` endpoint. -/
def update_roaster_references (roasters : List LookupRec)
    (products : List Product) (roaster_id : Nat) (action : String)
    (replacement_id : Option Nat) (now : String) :
    Except String (Nat × List Product) :=
  match find_by_id (·.id) roasters roaster_id with
  | none => Except.error "Roaster not found"
  | some _ =>
    Except.ok (ref_update_loop (product_save now)
      (roaster_ref_rewrite roaster_id action replacement_id)
      products products 0)

/-- Per-product rewrite attempted by `update_country_references`:
`some p'` when the product was rewritten (and will be persisted and
counted), `none` when the `updated` flag stays false.  The `replace`
action resolves `replacement_id` in the countries table and does
nothing when it is absent. -/
def country_ref_rewrite (countries : List LookupRec) (cname : String)
    (action : String) (replacement_id : Option Nat) (p : Product) :
    Option Product :=
  match p.country with
  | CountryRef.clist l =>
    if l.contains cname then
      if action == "remove" then
        some { p with country := CountryRef.clist (l.filter (· != cname)) }
      else if action == "replace" && pyTruthyNat replacement_id then
        match find_by_id (·.id) countries (replacement_id.getD 0) with
        | some replacement =>
          some { p with country := (CountryRef.clist
            (l.map (fun c => if c == cname then replacement.name else c))) }
        | none => none
      else none
    else none
  | CountryRef.cscalar s =>
    if s == cname then
      if action == "remove" then
        some { p with country := CountryRef.clist [] }
      else if action == "replace" && pyTruthyNat replacement_id then
        match find_by_id (·.id) countries (replacement_id.getD 0) with
        | some replacement =>
          some { p with country := CountryRef.clist [replacement.name] }
        | none => none
      else none
    else none
  | CountryRef.cnull => none

/-- `update_country_references` endpoint. -/
def update_country_references (countries : List LookupRec)
    (products : List Product) (country_id : Nat) (action : String)
    (replacement_id : Option Nat) (now : String) :
    Except String (Nat × List Product) :=
  match find_by_id (·.id) countries country_id with
  | none => Except.error "Country not found"
  | some country =>
    Except.ok (ref_update_loop (product_save now)
      (country_ref_rewrite countries country.name action replacement_id)
      products products 0)

/-- Per-session rewrite of `update_grinder_references` (same shape as
the roaster one): `replace` stores `replacement_id` without checking
that it exists. -/
def grinder_ref_rewrite (grinder_id : Nat) (action : String)
    (replacement_id : Option Nat) (s : BrewSession) : Option BrewSession :=
  if s.grinder_id == some grinder_id then
    some
      (if action == "remove" then { s with grinder_id := none }
       else if action == "replace" && pyTruthyNat replacement_id then
         { s with grinder_id := replacement_id }
       else s)
  else none

/-- `update_grinder_references` endpoint. -/
def update_grinder_references (grinders : List LookupRec)
    (sessions : List BrewSession) (grinder_id : Nat) (action : String)
    (replacement_id : Option Nat) (now : String) :
    Except String (Nat × List BrewSession) :=
  match find_by_id (·.id) grinders grinder_id with
  | none => Except.error "Grinder not found"
  | some _ =>
    Except.ok (ref_update_loop (session_save now)
      (grinder_ref_rewrite grinder_id action replacement_id)
      sessions sessions 0)

/-! ## Brew-session validation (`api/batches.py`)

Both the POST (create) and PUT (update) handlers convert the six
tasting fields with `safe_int` and the overall score with `safe_float`,
collect range violations into `validation_errors`, and reject with a
400 before any write when that list is non-empty.  The input here
carries the already-converted values (`safe_int` returns an integer
unchanged; Python floats on these inputs compare exactly like the
rationals used here). -/

structure BrewInput where
  sweetness : Option Int := none
  acidity : Option Int := none
  bitterness : Option Int := none
  body : Option Int := none
  aroma : Option Int := none
  flavor_profile_match : Option Int := none
  score : Option ℚ := none
  grinder_id : Option Nat := none
deriving Repr, DecidableEq

/-- The `(field_name, field_value)` list the validation loop walks. -/
def tasting_fields (i : BrewInput) : List (String × Option Int) :=
  [("sweetness", i.sweetness), ("acidity", i.acidity),
   ("bitterness", i.bitterness), ("body", i.body), ("aroma", i.aroma),
   ("flavor_profile_match", i.flavor_profile_match)]

/-- One iteration of the tasting-score validation loop: append the
range message for a present out-of-range value. -/
def tasting_error_step (errs : List String) (fv : String × Option Int) :
    List String :=
  match fv.2 with
  | some v =>
    if v < 1 ∨ v > 10 then errs ++ [fv.1 ++ " must be between 1 and 10"]
    else errs
  | none => errs

/-- The `validation_errors` list: one message per present tasting field
outside 1–10, then one for a present score outside 1.0–10.0. -/
def brew_validation_errors (i : BrewInput) : List String :=
  let errs := (tasting_fields i).foldl tasting_error_step []
  match i.score with
  | some q =>
    if q < 1 ∨ q > 10 then errs ++ ["score must be between 1.0 and 10.0"]
    else errs
  | none => errs

/-- POST branch of `handle_batch_brew_sessions`: reject when
`validation_errors` is non-empty, else create the session storing the
converted values unchanged. -/
def handle_batch_brew_sessions_post (sessions : List BrewSession)
    (i : BrewInput) (now : String) :
    Except String (BrewSession × List BrewSession) :=
  if brew_validation_errors i ≠ [] then
    Except.error (String.intercalate "; " (brew_validation_errors i))
  else
    let new_session : BrewSession :=
      { id := get_next_id (·.id) sessions, grinder_id := i.grinder_id,
        sweetness := i.sweetness, acidity := i.acidity,
        bitterness := i.bitterness, body := i.body, aroma := i.aroma,
        flavor_profile_match := i.flavor_profile_match, score := i.score,
        created_at := now, updated_at := now }
    Except.ok (new_session, sessions ++ [new_session])

/-- The stored sessions table after the POST handler: a 400 happens
before `create`, so the table is only written on success. -/
def handle_batch_brew_sessions_post_store (sessions : List BrewSession)
    (i : BrewInput) (now : String) : List BrewSession :=
  match handle_batch_brew_sessions_post sessions i now with
  | Except.ok (_, sessions') => sessions'
  | Except.error _ => sessions

/-- `update_brew_session` (PUT): look the session up, reject when
`validation_errors` is non-empty, else store the merge of the existing
record with the provided values (`x if x is not None else existing`)
through the repository `update`. -/
def update_brew_session (sessions : List BrewSession) (session_id : Nat)
    (i : BrewInput) (now : String) :
    Except String (Option BrewSession × List BrewSession) :=
  match find_by_id (·.id) sessions session_id with
  | none => Except.error "Brew session not found"
  | some existing =>
    if brew_validation_errors i ≠ [] then
      Except.error (String.intercalate "; " (brew_validation_errors i))
    else
      let merged : BrewSession :=
        { existing with
          sweetness := i.sweetness.or existing.sweetness,
          acidity := i.acidity.or existing.acidity,
          bitterness := i.bitterness.or existing.bitterness,
          body := i.body.or existing.body,
          aroma := i.aroma.or existing.aroma,
          flavor_profile_match :=
            i.flavor_profile_match.or existing.flavor_profile_match,
          score := i.score.or existing.score }
      Except.ok (session_update sessions session_id merged now)

/-- The stored sessions table after the PUT handler: validation fires
before `session_repo.update`, so the table is only written on
success. -/
def update_brew_session_store (sessions : List BrewSession)
    (session_id : Nat) (i : BrewInput) (now : String) :
    List BrewSession :=
  match update_brew_session sessions session_id i now with
  | Except.ok (_, sessions') => sessions'
  | Except.error _ => sessions

/-! ## Schema migrations

Both registered migration steps only ever add fields with default
values to records that lack them (`if field not in record`), modelled
over JSON objects as ordered key/value lists (Python dicts preserve
insertion order; a new key is appended). -/

inductive JVal where
  | jnull : JVal
  | jstr (s : String) : JVal
  | jbool (b : Bool) : JVal
deriving Repr, DecidableEq

abbrev JObj := List (String × JVal)

/-- Python `field in record`. -/
def hasField (item : JObj) (field : String) : Bool :=
  item.any (fun kv => kv.1 == field)

/-- `if field_name not in item: item[field_name] = default_value`. -/
def addFieldIfMissing (item : JObj) (field : String) (v : JVal) : JObj :=
  if hasField item field then item else item ++ [(field, v)]

/-- The `new_fields` dict of `migrate_1_0_to_1_1`, in insertion order. -/
def new_fields_1_1 : List (String × JVal) :=
  [("short_form", JVal.jnull), ("description", JVal.jnull),
   ("notes", JVal.jnull), ("url", JVal.jnull), ("image_url", JVal.jnull),
   ("icon", JVal.jnull)]

/-- Per-record body of `migrate_1_0_to_1_1`. -/
def migrate_1_0_to_1_1_item (item : JObj) : JObj :=
  new_fields_1_1.foldl (fun it fv => addFieldIfMissing it fv.1 fv.2) item

/-- `migrate_1_0_to_1_1` on one lookup table's records. -/
def migrate_1_0_to_1_1 (items : List JObj) : List JObj :=
  items.map migrate_1_0_to_1_1_item

/-- Per-record body of `add_audit_timestamps_to_file`
(`migrate_1_1_to_1_2`): add `created_at` then `updated_at` when
missing, both set to the run's default timestamp. -/
def add_audit_timestamps_item (ts : String) (item : JObj) : JObj :=
  addFieldIfMissing (addFieldIfMissing item "created_at" (JVal.jstr ts))
    "updated_at" (JVal.jstr ts)

/-- `add_audit_timestamps_to_file` on one table's records. -/
def add_audit_timestamps_to_file (ts : String) (items : List JObj) :
    List JObj :=
  items.map (add_audit_timestamps_item ts)

/-- `add_is_active_to_batches` (`migrate_1_1_to_1_2`). -/
def add_is_active_to_batches (items : List JObj) : List JObj :=
  items.map (fun it => addFieldIfMissing it "is_active" (JVal.jbool true))

/-- `add_is_default_to_lookup_file` (`migrate_1_1_to_1_2`). -/
def add_is_default_to_lookup_file (items : List JObj) : List JObj :=
  items.map (fun it => addFieldIfMissing it "is_default" (JVal.jbool false))

/-! ## Field-addition lemmas for the migrations -/

theorem hasField_addFieldIfMissing_self (item : JObj) (k : String)
    (v : JVal) : hasField (addFieldIfMissing item k v) k = true := by
  unfold addFieldIfMissing
  split
  · assumption
  · simp [hasField, List.any_append]

theorem hasField_addFieldIfMissing_of (item : JObj) (k k' : String)
    (v' : JVal) (h : hasField item k = true) :
    hasField (addFieldIfMissing item k' v') k = true := by
  unfold addFieldIfMissing
  split
  · exact h
  · simp only [hasField, List.any_append, Bool.or_eq_true]
    exact Or.inl h

theorem addFieldIfMissing_of_hasField {item : JObj} {k : String}
    (v : JVal) (h : hasField item k = true) :
    addFieldIfMissing item k v = item := by
  simp [addFieldIfMissing, h]

theorem hasField_foldl_of (fs : List (String × JVal)) (item : JObj)
    (k : String) (h : hasField item k = true) :
    hasField (fs.foldl (fun it fv => addFieldIfMissing it fv.1 fv.2) item)
      k = true := by
  induction fs generalizing item with
  | nil => exact h
  | cons fv fs ih => exact ih _ (hasField_addFieldIfMissing_of _ _ _ _ h)

theorem hasField_foldl_mem (fs : List (String × JVal)) (item : JObj)
    (kv : String × JVal) (hm : kv ∈ fs) :
    hasField (fs.foldl (fun it fv => addFieldIfMissing it fv.1 fv.2) item)
      kv.1 = true := by
  induction fs generalizing item with
  | nil => cases hm
  | cons fv fs ih =>
    rcases List.mem_cons.mp hm with h | h
    · subst h
      exact hasField_foldl_of fs _ _ (hasField_addFieldIfMissing_self _ _ _)
    · exact ih _ h

theorem foldl_addFieldIfMissing_of_present (fs : List (String × JVal))
    (item : JObj) (h : ∀ kv ∈ fs, hasField item kv.1 = true) :
    fs.foldl (fun it fv => addFieldIfMissing it fv.1 fv.2) item = item := by
  induction fs with
  | nil => rfl
  | cons fv fs ih =>
    simp only [List.foldl_cons]
    rw [addFieldIfMissing_of_hasField fv.2 (h fv (List.mem_cons_self _ _))]
    exact ih fun kv hk => h kv (List.mem_cons_of_mem _ hk)

theorem migrate_1_0_to_1_1_item_stable (item : JObj) :
    migrate_1_0_to_1_1_item (migrate_1_0_to_1_1_item item) =
      migrate_1_0_to_1_1_item item := by
  unfold migrate_1_0_to_1_1_item
  exact foldl_addFieldIfMissing_of_present _ _
    (fun kv hk => hasField_foldl_mem _ _ _ hk)

theorem add_audit_timestamps_item_stable (ts₁ ts₂ : String) (item : JObj) :
    add_audit_timestamps_item ts₂ (add_audit_timestamps_item ts₁ item) =
      add_audit_timestamps_item ts₁ item := by
  unfold add_audit_timestamps_item
  have h1 : hasField (addFieldIfMissing (addFieldIfMissing item
      "created_at" (JVal.jstr ts₁)) "updated_at" (JVal.jstr ts₁))
      "created_at" = true :=
    hasField_addFieldIfMissing_of _ _ _ _
      (hasField_addFieldIfMissing_self _ _ _)
  have h2 : hasField (addFieldIfMissing (addFieldIfMissing item
      "created_at" (JVal.jstr ts₁)) "updated_at" (JVal.jstr ts₁))
      "updated_at" = true :=
    hasField_addFieldIfMissing_self _ _ _
  rw [addFieldIfMissing_of_hasField _ h1, addFieldIfMissing_of_hasField _ h2]

/-- A map of a function stable under self-composition is unchanged by a
second map. -/
theorem map_self_stable {α : Type} (f : α → α) (h : ∀ a, f (f a) = f a)
    (l : List α) : (l.map f).map f = l.map f := by
  induction l with
  | nil => rfl
  | cons a l ih => simp only [List.map_cons, h, ih]

/-- Variant of `map_self_stable` for a second pass by a different
function that fixes the first pass's output pointwise. -/
theorem map_self_stable_two {α : Type} (f g : α → α)
    (h : ∀ a, g (f a) = f a) (l : List α) : (l.map f).map g = l.map f := by
  induction l with
  | nil => rfl
  | cons a l ih => simp only [List.map_cons, h, ih]

/-- C8: each registered migration is idempotent on its fields — a
second run against already-migrated data (even with a later default
timestamp) writes no field value and leaves every record, and hence
every data file, unchanged. -/
theorem migration_second_run_is_noop :
    (∀ items : List JObj,
      migrate_1_0_to_1_1 (migrate_1_0_to_1_1 items) =
        migrate_1_0_to_1_1 items)
  ∧ (∀ (ts₁ ts₂ : String) (items : List JObj),
      add_audit_timestamps_to_file ts₂ (add_audit_timestamps_to_file ts₁
        items) = add_audit_timestamps_to_file ts₁ items)
  ∧ (∀ items : List JObj,
      add_is_active_to_batches (add_is_active_to_batches items) =
        add_is_active_to_batches items)
  ∧ (∀ items : List JObj,
      add_is_default_to_lookup_file (add_is_default_to_lookup_file items) =
        add_is_default_to_lookup_file items) := by
  refine ⟨fun items => ?_, fun ts₁ ts₂ items => ?_, fun items => ?_,
    fun items => ?_⟩
  · exact map_self_stable _ migrate_1_0_to_1_1_item_stable items
  · exact map_self_stable_two _ _
      (fun a => add_audit_timestamps_item_stable ts₁ ts₂ a) items
  · exact map_self_stable _
      (fun a => addFieldIfMissing_of_hasField _
        (hasField_addFieldIfMissing_self _ _ _)) items
  · exact map_self_stable _
      (fun a => addFieldIfMissing_of_hasField _
        (hasField_addFieldIfMissing_self _ _ _)) items

/-! ## Identifier assignment (C9) -/

/-- C9 counterexample: in the table `[id 1, id 5]` the largest id is 5,
yet deleting id 5 and creating again assigns id 2, not 5 (the next id
is computed from the records that remain, and their maximum is 1). -/
theorem deleted_max_id_not_reused_counterexample :
    (∀ r ∈ ([⟨1, "a", false, "", ""⟩, ⟨5, "b", false, "", ""⟩] :
        List LookupRec), r.id ≤ 5)
    ∧ 5 ∈ ([⟨1, "a", false, "", ""⟩, ⟨5, "b", false, "", ""⟩] :
        List LookupRec).map (·.id)
    ∧ (lookup_create (repo_delete (·.id)
        [⟨1, "a", false, "", ""⟩, ⟨5, "b", false, "", ""⟩] 5) "c"
        "now").1.id = 2
    ∧ (lookup_create (repo_delete (·.id)
        [⟨1, "a", false, "", ""⟩, ⟨5, "b", false, "", ""⟩] 5) "c"
        "now").1.id ≠ 5 := by
  decide

/-- C9 (amended): the next id is computed from the surviving records
only (max existing + 1, or 1 for an empty table, with no memory of
deleted ids), so after deleting the record with the largest id `M` the
created record gets id `M` again exactly when the remaining table is
empty and `M = 1`, or the remaining records' largest id is `M - 1`. -/
theorem next_id_after_delete_max (t : List LookupRec) (M : Nat)
    (_hmem : M ∈ t.map (·.id)) (_hmax : ∀ r ∈ t, r.id ≤ M)
    (name now : String) :
    (lookup_create (repo_delete (·.id) t M) name now).1.id =
      get_next_id (·.id) (repo_delete (·.id) t M)
    ∧ ((lookup_create (repo_delete (·.id) t M) name now).1.id = M ↔
        (repo_delete (·.id) t M = [] ∧ M = 1) ∨
        (repo_delete (·.id) t M ≠ [] ∧
          ((repo_delete (·.id) t M).map (·.id)).foldl max 0 + 1 = M)) := by
  refine ⟨rfl, ?_⟩
  rcases h : repo_delete (·.id) t M with _ | ⟨x, xs⟩
  · simp [lookup_create, get_next_id, h, eq_comm]
  · simp [lookup_create, get_next_id, h]

theorem next_id_after_delete_max_witness :
    (5 ∈ ([⟨1, "a", false, "", ""⟩, ⟨5, "b", false, "", ""⟩] :
        List LookupRec).map (·.id)
      ∧ ∀ r ∈ ([⟨1, "a", false, "", ""⟩, ⟨5, "b", false, "", ""⟩] :
        List LookupRec), r.id ≤ 5)
    ∧ ((lookup_create (repo_delete (·.id)
        ([⟨1, "a", false, "", ""⟩, ⟨5, "b", false, "", ""⟩] :
          List LookupRec) 5) "c" "now").1.id = 5 ↔
        (repo_delete (·.id)
          ([⟨1, "a", false, "", ""⟩, ⟨5, "b", false, "", ""⟩] :
            List LookupRec) 5 = [] ∧ 5 = 1) ∨
        (repo_delete (·.id)
          ([⟨1, "a", false, "", ""⟩, ⟨5, "b", false, "", ""⟩] :
            List LookupRec) 5 ≠ [] ∧
          ((repo_delete (·.id)
            ([⟨1, "a", false, "", ""⟩, ⟨5, "b", false, "", ""⟩] :
              List LookupRec) 5).map (·.id)).foldl max 0 + 1 = 5)) :=
  ⟨⟨by decide, by decide⟩,
    (next_id_after_delete_max _ 5 (by decide) (by decide) "c" "now").2⟩

/-! ## `set_default` atomicity on failure (C10) -/

/-- C10: calling `set_default` with an id absent from the table raises
the not-found error and leaves the stored table unchanged: the clearing
pass only mutates the freshly parsed in-memory list, and the exception
fires before `_write_data`. -/
theorem set_default_missing_id_atomic (t : List LookupRec)
    (item_id : Nat) (h : ∀ r ∈ t, r.id ≠ item_id) :
    set_default t item_id = Except.error "Item with id not found"
    ∧ set_default_store t item_id = t := by
  have hany : t.any (fun item => item.id == item_id) = false := by
    rw [List.any_eq_false]
    intro x hx
    simpa using h x hx
  exact ⟨by simp [set_default, hany],
    by simp [set_default_store, set_default, hany]⟩

theorem set_default_missing_id_atomic_witness :
    (∀ r ∈ ([⟨1, "a", true, "", ""⟩, ⟨3, "b", false, "", ""⟩] :
        List LookupRec), r.id ≠ 2)
    ∧ set_default [⟨1, "a", true, "", ""⟩, ⟨3, "b", false, "", ""⟩] 2 =
        Except.error "Item with id not found"
    ∧ set_default_store
        [⟨1, "a", true, "", ""⟩, ⟨3, "b", false, "", ""⟩] 2 =
        [⟨1, "a", true, "", ""⟩, ⟨3, "b", false, "", ""⟩] := by
  refine ⟨by decide, ?_, ?_⟩
  · exact (set_default_missing_id_atomic _ 2 (by decide)).1
  · exact (set_default_missing_id_atomic _ 2 (by decide)).2

/-! ## Repository `update` semantics (C6) -/

/-- C6: `update` on an id present in the table returns a record with
that id, `created_at` carried over from the prior stored record and
`updated_at` set to `now`; on an absent id it returns `None` and
leaves the table unchanged.  (The method lives in
`JSONRepositoryBase`, shared by every table.) -/
theorem repo_update_semantics :
    (∀ (t : List LookupRec) (id : Nat) (d : LookupRec) (now : String)
      (prior : LookupRec), find_by_id (·.id) t id = some prior →
      ∃ u, (lookup_update t id d now).1 = some u ∧ u.id = id ∧
        u.created_at = prior.created_at ∧ u.updated_at = now)
    ∧ (∀ (t : List LookupRec) (id : Nat) (d : LookupRec) (now : String),
      find_by_id (·.id) t id = none →
      lookup_update t id d now = (none, t)) := by
  constructor
  · intro t id d now prior hfind
    induction t with
    | nil => simp [find_by_id] at hfind
    | cons item rest ih =>
      simp only [find_by_id] at hfind
      by_cases hid : item.id = id
      · rw [List.find?_cons_of_pos _ (by simpa using hid)] at hfind
        have hpi := Option.some.inj hfind
        refine ⟨{ d with
            id := id
            created_at := item.created_at
            updated_at := now }, ?_, rfl, ?_, rfl⟩
        · simp [lookup_update, hid]
        · have hca : item.created_at = prior.created_at :=
            congrArg LookupRec.created_at hpi
          exact hca
      · rw [List.find?_cons_of_neg _ (by simpa using hid)] at hfind
        obtain ⟨u, hu, h1, h2, h3⟩ := ih hfind
        refine ⟨u, ?_, h1, h2, h3⟩
        simpa [lookup_update, hid] using hu
  · intro t id d now hfind
    induction t with
    | nil => simp [lookup_update]
    | cons item rest ih =>
      simp only [find_by_id] at hfind
      by_cases hid : item.id = id
      · rw [List.find?_cons_of_pos _ (by simpa using hid)] at hfind
        cases hfind
      · rw [List.find?_cons_of_neg _ (by simpa using hid)] at hfind
        have hrest := ih hfind
        simp [lookup_update, hid, hrest]

theorem repo_update_semantics_witness :
    (find_by_id (·.id) ([⟨1, "a", false, "c1", "u1"⟩] : List LookupRec) 1 =
      some ⟨1, "a", false, "c1", "u1"⟩
    ∧ ∃ u, (lookup_update [⟨1, "a", false, "c1", "u1"⟩] 1
        ⟨0, "b", true, "x", "y"⟩ "now").1 = some u ∧ u.id = 1 ∧
        u.created_at = "c1" ∧ u.updated_at = "now")
    ∧ (find_by_id (·.id) ([⟨1, "a", false, "c1", "u1"⟩] :
        List LookupRec) 2 = none
    ∧ lookup_update [⟨1, "a", false, "c1", "u1"⟩] 2
        ⟨0, "b", true, "x", "y"⟩ "now" =
        (none, [⟨1, "a", false, "c1", "u1"⟩])) :=
  ⟨⟨by decide,
    repo_update_semantics.1 _ 1 ⟨0, "b", true, "x", "y"⟩ "now"
      ⟨1, "a", false, "c1", "u1"⟩ (by decide)⟩,
   ⟨by decide,
    repo_update_semantics.2 _ 2 ⟨0, "b", true, "x", "y"⟩ "now"
      (by decide)⟩⟩

/-! ## Usage endpoints (C1) -/

/-- C1 counterexample: two country records share the name "A" (the
plain create endpoint never deduplicates names).  A product stores
`country_id = 1` and the legacy name field `country = "A"`.  The usage
endpoint for country id 2 reports `usage_count = 1` and `in_use = true`
because it matches on the record's *name*, while the number of products
whose relevant ID field equals 2 is 0. -/
theorem country_usage_by_name_counterexample :
    check_country_usage
      ([⟨1, "A", false, "", ""⟩, ⟨2, "A", false, "", ""⟩] :
        List LookupRec)
      ([{ id := 1, country_id := some 1,
          country := CountryRef.cscalar "A" }] : List Product) 2 =
      Except.ok { in_use := true, usage_count := 1 }
    ∧ spec_country_usage_count
      ([{ id := 1, country_id := some 1,
          country := CountryRef.cscalar "A" }] : List Product) 2 = 0 :=
  ⟨rfl, by decide⟩

/-- C1 (amended): for an existing lookup id, every usage endpoint
returns `in_use` true exactly when its reported count is positive.
For eight of the ten lookup kinds — roaster, bean type, brew method,
recipe, grinder, filter, kettle, scale — `usage_count` is the number
of dependent records whose relevant ID field equals the lookup id
(scalar equality, or list-membership for the list-valued
`bean_type_id`).  Only the country and decaf-method endpoints deviate:
they count dependent products whose legacy name-valued field matches
the looked-up record's *name* (scalar equality or list-membership of
the name), not its id. -/
theorem usage_endpoint_counts :
    (∀ (roasters : List LookupRec) (products : List Product)
      (rid : Nat) (r : LookupRec) (u : UsageResult),
      find_by_id (·.id) roasters rid = some r →
      check_roaster_usage roasters products rid = Except.ok u →
      u.usage_count = products.countP (fun p => p.roaster_id == some rid) ∧
        (u.in_use = true ↔ 0 < u.usage_count))
    ∧ (∀ (bean_types : List LookupRec) (products : List Product)
      (bid : Nat) (b : LookupRec) (u : UsageResult),
      find_by_id (·.id) bean_types bid = some b →
      check_bean_type_usage bean_types products bid = Except.ok u →
      u.usage_count = products.countP (beanTypeIdMatch bid) ∧
        (u.in_use = true ↔ 0 < u.usage_count))
    ∧ (∀ (countries : List LookupRec) (products : List Product)
      (cid : Nat) (c : LookupRec) (u : UsageResult),
      find_by_id (·.id) countries cid = some c →
      check_country_usage countries products cid = Except.ok u →
      u.usage_count = products.countP (countryNameMatch c.name) ∧
        (u.in_use = true ↔ 0 < u.usage_count))
    ∧ (∀ (brew_methods : List LookupRec) (sessions : List BrewSession)
      (mid : Nat) (m : LookupRec) (u : UsageResult),
      find_by_id (·.id) brew_methods mid = some m →
      check_brew_method_usage brew_methods sessions mid = Except.ok u →
      u.usage_count =
          sessions.countP (fun s => s.brew_method_id == some mid) ∧
        (u.in_use = true ↔ 0 < u.usage_count))
    ∧ (∀ (recipes : List LookupRec) (sessions : List BrewSession)
      (rcid : Nat) (rc : LookupRec) (u : UsageResult),
      find_by_id (·.id) recipes rcid = some rc →
      check_recipe_usage recipes sessions rcid = Except.ok u →
      u.usage_count = sessions.countP (fun s => s.recipe_id == some rcid) ∧
        (u.in_use = true ↔ 0 < u.usage_count))
    ∧ (∀ (decaf_methods : List LookupRec) (products : List Product)
      (did : Nat) (dm : LookupRec) (u : UsageResult),
      find_by_id (·.id) decaf_methods did = some dm →
      check_decaf_method_usage decaf_methods products did = Except.ok u →
      u.usage_count = products.countP (fun p => p.decaf_method == some dm.name)
        ∧ (u.in_use = true ↔ 0 < u.usage_count))
    ∧ (∀ (grinders : List LookupRec) (sessions : List BrewSession)
      (gid : Nat) (g : LookupRec) (u : UsageResult),
      find_by_id (·.id) grinders gid = some g →
      check_grinder_usage grinders sessions gid = Except.ok u →
      u.usage_count = sessions.countP (fun s => s.grinder_id == some gid) ∧
        (u.in_use = true ↔ 0 < u.usage_count))
    ∧ (∀ (filters : List LookupRec) (sessions : List BrewSession)
      (fid : Nat) (f : LookupRec) (u : UsageResult),
      find_by_id (·.id) filters fid = some f →
      check_filter_usage filters sessions fid = Except.ok u →
      u.usage_count = sessions.countP (fun s => s.filter_id == some fid) ∧
        (u.in_use = true ↔ 0 < u.usage_count))
    ∧ (∀ (kettles : List LookupRec) (sessions : List BrewSession)
      (kid : Nat) (k : LookupRec) (u : UsageResult),
      find_by_id (·.id) kettles kid = some k →
      check_kettle_usage kettles sessions kid = Except.ok u →
      u.usage_count = sessions.countP (fun s => s.kettle_id == some kid) ∧
        (u.in_use = true ↔ 0 < u.usage_count))
    ∧ (∀ (scales : List LookupRec) (sessions : List BrewSession)
      (sid : Nat) (sc : LookupRec) (u : UsageResult),
      find_by_id (·.id) scales sid = some sc →
      check_scale_usage scales sessions sid = Except.ok u →
      u.usage_count = sessions.countP (fun s => s.scale_id == some sid) ∧
        (u.in_use = true ↔ 0 < u.usage_count)) := by
  refine ⟨fun roasters products rid r u h hu => ?_,
    fun bean_types products bid b u h hu => ?_,
    fun countries products cid c u h hu => ?_,
    fun brew_methods sessions mid m u h hu => ?_,
    fun recipes sessions rcid rc u h hu => ?_,
    fun decaf_methods products did dm u h hu => ?_,
    fun grinders sessions gid g u h hu => ?_,
    fun filters sessions fid f u h hu => ?_,
    fun kettles sessions kid k u h hu => ?_,
    fun scales sessions sid sc u h hu => ?_⟩
  · simp only [check_roaster_usage, h] at hu
    cases hu
    exact ⟨rfl, by simp⟩
  · simp only [check_bean_type_usage, h] at hu
    cases hu
    exact ⟨rfl, by simp⟩
  · simp only [check_country_usage, h] at hu
    cases hu
    exact ⟨rfl, by simp⟩
  · simp only [check_brew_method_usage, h] at hu
    cases hu
    exact ⟨rfl, by simp⟩
  · simp only [check_recipe_usage, h] at hu
    cases hu
    exact ⟨rfl, by simp⟩
  · simp only [check_decaf_method_usage, h] at hu
    cases hu
    exact ⟨rfl, by simp⟩
  · simp only [check_grinder_usage, h] at hu
    cases hu
    exact ⟨rfl, by simp⟩
  · simp only [check_filter_usage, h] at hu
    cases hu
    exact ⟨rfl, by simp⟩
  · simp only [check_kettle_usage, h] at hu
    cases hu
    exact ⟨rfl, by simp⟩
  · simp only [check_scale_usage, h] at hu
    cases hu
    exact ⟨rfl, by simp⟩

theorem usage_endpoint_counts_witness :
    (find_by_id (·.id) ([⟨1, "R", false, "", ""⟩] : List LookupRec) 1 =
        some ⟨1, "R", false, "", ""⟩
      ∧ check_roaster_usage ([⟨1, "R", false, "", ""⟩] : List LookupRec)
          ([{ id := 1, roaster_id := some 1 }] : List Product) 1 =
          Except.ok { in_use := true, usage_count := 1 }
      ∧ UsageResult.usage_count { in_use := true, usage_count := 1 } =
          List.countP (fun p => p.roaster_id == some 1)
            ([{ id := 1, roaster_id := some 1 }] : List Product) ∧
        (UsageResult.in_use { in_use := true, usage_count := 1 } = true ↔
          0 < UsageResult.usage_count { in_use := true, usage_count := 1 }))
    ∧ (check_bean_type_usage ([⟨1, "B", false, "", ""⟩] : List LookupRec)
          ([{ id := 1, bean_type_id := IdRef.rlist [1] }] :
            List Product) 1 =
          Except.ok { in_use := true, usage_count := 1 }
      ∧ UsageResult.usage_count { in_use := true, usage_count := 1 } =
          List.countP (beanTypeIdMatch 1)
            ([{ id := 1, bean_type_id := IdRef.rlist [1] }] :
              List Product))
    ∧ (check_country_usage ([⟨1, "A", false, "", ""⟩] : List LookupRec)
          ([{ id := 1, country := CountryRef.clist ["A"] }] :
            List Product) 1 =
          Except.ok { in_use := true, usage_count := 1 }
      ∧ UsageResult.usage_count { in_use := true, usage_count := 1 } =
          List.countP (countryNameMatch "A")
            ([{ id := 1, country := CountryRef.clist ["A"] }] :
              List Product))
    ∧ (check_brew_method_usage ([⟨1, "V60", false, "", ""⟩] :
          List LookupRec)
          ([{ id := 1, brew_method_id := some 1 }] : List BrewSession) 1 =
          Except.ok { in_use := true, usage_count := 1 }
      ∧ UsageResult.usage_count { in_use := true, usage_count := 1 } =
          List.countP (fun s => s.brew_method_id == some 1)
            ([{ id := 1, brew_method_id := some 1 }] : List BrewSession))
    ∧ (check_recipe_usage ([⟨1, "Rc", false, "", ""⟩] : List LookupRec)
          ([{ id := 1, recipe_id := some 1 }] : List BrewSession) 1 =
          Except.ok { in_use := true, usage_count := 1 }
      ∧ UsageResult.usage_count { in_use := true, usage_count := 1 } =
          List.countP (fun s => s.recipe_id == some 1)
            ([{ id := 1, recipe_id := some 1 }] : List BrewSession))
    ∧ (check_decaf_method_usage ([⟨1, "SW", false, "", ""⟩] :
          List LookupRec)
          ([{ id := 1, decaf_method := some "SW" }] : List Product) 1 =
          Except.ok { in_use := true, usage_count := 1 }
      ∧ UsageResult.usage_count { in_use := true, usage_count := 1 } =
          List.countP (fun p => p.decaf_method == some "SW")
            ([{ id := 1, decaf_method := some "SW" }] : List Product))
    ∧ (check_grinder_usage ([⟨1, "G", false, "", ""⟩] : List LookupRec)
          ([{ id := 1, grinder_id := some 1 }] : List BrewSession) 1 =
          Except.ok { in_use := true, usage_count := 1 }
      ∧ UsageResult.usage_count { in_use := true, usage_count := 1 } =
          List.countP (fun s => s.grinder_id == some 1)
            ([{ id := 1, grinder_id := some 1 }] : List BrewSession))
    ∧ (check_filter_usage ([⟨1, "F", false, "", ""⟩] : List LookupRec)
          ([{ id := 1, filter_id := some 1 }] : List BrewSession) 1 =
          Except.ok { in_use := true, usage_count := 1 }
      ∧ UsageResult.usage_count { in_use := true, usage_count := 1 } =
          List.countP (fun s => s.filter_id == some 1)
            ([{ id := 1, filter_id := some 1 }] : List BrewSession))
    ∧ (check_kettle_usage ([⟨1, "K", false, "", ""⟩] : List LookupRec)
          ([{ id := 1, kettle_id := some 1 }] : List BrewSession) 1 =
          Except.ok { in_use := true, usage_count := 1 }
      ∧ UsageResult.usage_count { in_use := true, usage_count := 1 } =
          List.countP (fun s => s.kettle_id == some 1)
            ([{ id := 1, kettle_id := some 1 }] : List BrewSession))
    ∧ (check_scale_usage ([⟨1, "S", false, "", ""⟩] : List LookupRec)
          ([{ id := 1, scale_id := some 1 }] : List BrewSession) 1 =
          Except.ok { in_use := true, usage_count := 1 }
      ∧ UsageResult.usage_count { in_use := true, usage_count := 1 } =
          List.countP (fun s => s.scale_id == some 1)
            ([{ id := 1, scale_id := some 1 }] : List BrewSession)) :=
  ⟨⟨by decide, rfl,
    usage_endpoint_counts.1 [⟨1, "R", false, "", ""⟩]
      [{ id := 1, roaster_id := some 1 }] 1 ⟨1, "R", false, "", ""⟩
      { in_use := true, usage_count := 1 } (by decide) rfl⟩,
   ⟨rfl,
    (usage_endpoint_counts.2.1 [⟨1, "B", false, "", ""⟩]
      [{ id := 1, bean_type_id := IdRef.rlist [1] }] 1
      ⟨1, "B", false, "", ""⟩ { in_use := true, usage_count := 1 }
      (by decide) rfl).1⟩,
   ⟨rfl,
    (usage_endpoint_counts.2.2.1 [⟨1, "A", false, "", ""⟩]
      [{ id := 1, country := CountryRef.clist ["A"] }] 1
      ⟨1, "A", false, "", ""⟩ { in_use := true, usage_count := 1 }
      (by decide) rfl).1⟩,
   ⟨rfl,
    (usage_endpoint_counts.2.2.2.1 [⟨1, "V60", false, "", ""⟩]
      [{ id := 1, brew_method_id := some 1 }] 1 ⟨1, "V60", false, "", ""⟩
      { in_use := true, usage_count := 1 } (by decide) rfl).1⟩,
   ⟨rfl,
    (usage_endpoint_counts.2.2.2.2.1 [⟨1, "Rc", false, "", ""⟩]
      [{ id := 1, recipe_id := some 1 }] 1 ⟨1, "Rc", false, "", ""⟩
      { in_use := true, usage_count := 1 } (by decide) rfl).1⟩,
   ⟨rfl,
    (usage_endpoint_counts.2.2.2.2.2.1 [⟨1, "SW", false, "", ""⟩]
      [{ id := 1, decaf_method := some "SW" }] 1 ⟨1, "SW", false, "", ""⟩
      { in_use := true, usage_count := 1 } (by decide) rfl).1⟩,
   ⟨rfl,
    (usage_endpoint_counts.2.2.2.2.2.2.1 [⟨1, "G", false, "", ""⟩]
      [{ id := 1, grinder_id := some 1 }] 1 ⟨1, "G", false, "", ""⟩
      { in_use := true, usage_count := 1 } (by decide) rfl).1⟩,
   ⟨rfl,
    (usage_endpoint_counts.2.2.2.2.2.2.2.1 [⟨1, "F", false, "", ""⟩]
      [{ id := 1, filter_id := some 1 }] 1 ⟨1, "F", false, "", ""⟩
      { in_use := true, usage_count := 1 } (by decide) rfl).1⟩,
   ⟨rfl,
    (usage_endpoint_counts.2.2.2.2.2.2.2.2.1 [⟨1, "K", false, "", ""⟩]
      [{ id := 1, kettle_id := some 1 }] 1 ⟨1, "K", false, "", ""⟩
      { in_use := true, usage_count := 1 } (by decide) rfl).1⟩,
   ⟨rfl,
    (usage_endpoint_counts.2.2.2.2.2.2.2.2.2 [⟨1, "S", false, "", ""⟩]
      [{ id := 1, scale_id := some 1 }] 1 ⟨1, "S", false, "", ""⟩
      { in_use := true, usage_count := 1 } (by decide) rfl).1⟩⟩

/-! ## Reference-rewrite loop lemmas (C2) -/

/-- A loop pass in which no entity matches (every rewrite yields
`none`) counts nothing and leaves the store untouched. -/
theorem ref_update_loop_of_none {α : Type} (save : List α → α → α → List α)
    (rewrite : α → Option α) (xs : List α) :
    ∀ (store : List α) (count : Nat), (∀ x ∈ xs, rewrite x = none) →
    ref_update_loop save rewrite xs store count = (count, store) := by
  induction xs with
  | nil => intro store count _; rfl
  | cons x xs ih =>
    intro store count h
    simp only [ref_update_loop, h x (List.mem_cons_self _ _)]
    exact ih store count fun y hy => h y (List.mem_cons_of_mem _ hy)

theorem repo_update_g_append_left {α : Type} (getId : α → Nat)
    (stamp : α → α → α) (front rest : List α) (id : Nat) (d : α)
    (h : ∀ q ∈ front, getId q ≠ id) :
    repo_update_g getId stamp (front ++ rest) id d =
      ((repo_update_g getId stamp rest id d).1,
        front ++ (repo_update_g getId stamp rest id d).2) := by
  induction front with
  | nil => simp
  | cons q front ih =>
    have hq : getId q ≠ id := h q (List.mem_cons_self _ _)
    simp only [List.cons_append, repo_update_g, if_neg hq, List.append_eq]
    rw [ih fun x hx => h x (List.mem_cons_of_mem _ hx)]

theorem repo_update_g_cons_self {α : Type} (getId : α → Nat)
    (stamp : α → α → α) (p : α) (rest : List α) (d : α) :
    repo_update_g getId stamp (p :: rest) (getId p) d =
      (some (stamp d p), stamp d p :: rest) := by
  simp [repo_update_g]

/-- `update` on an id found first at `prior` returns the stamped
supplied record. -/
theorem repo_update_g_found {α : Type} (getId : α → Nat)
    (stamp : α → α → α) (t : List α) (id : Nat) (d : α) (prior : α)
    (h : t.find? (fun x => getId x == id) = some prior) :
    (repo_update_g getId stamp t id d).1 = some (stamp d prior) := by
  induction t with
  | nil => simp at h
  | cons item rest ih =>
    by_cases hid : getId item = id
    · rw [List.find?_cons_of_pos _ (by simpa using hid)] at h
      obtain rfl := Option.some.inj h
      simp [repo_update_g, hid]
    · rw [List.find?_cons_of_neg _ (by simpa using hid)] at h
      simp only [repo_update_g, if_neg hid]
      exact ih h

/-- `update` of an id sitting at a known position with no earlier
occurrence: the stored table has exactly that record re-stamped. -/
theorem repo_update_g_mid {α : Type} (getId : α → Nat)
    (stamp : α → α → α) (front rest : List α) (p d : α)
    (hfront : ∀ q ∈ front, getId q ≠ getId p) :
    (repo_update_g getId stamp (front ++ p :: rest) (getId p) d).2 =
      front ++ stamp d p :: rest := by
  rw [repo_update_g_append_left getId stamp front (p :: rest) (getId p) d
    hfront, repo_update_g_cons_self]

/-- Net effect of one `update_…_references` pass over a table with
distinct ids: the store ends up mapped record-by-record (matches are
replaced by their rewrite, re-stamped by `update`), and the reported
count is the number of matches. -/
theorem ref_update_loop_map {α : Type} (getId : α → Nat)
    (stamp : α → α → α) (hstamp : ∀ d old, getId (stamp d old) = getId old)
    (rewrite : α → Option α) :
    ∀ (ps front : List α) (count : Nat),
      ((front ++ ps).map getId).Nodup →
      ref_update_loop
        (fun store x x' => (repo_update_g getId stamp store (getId x) x').2)
        rewrite ps (front ++ ps) count =
        (count + ps.countP (fun x => (rewrite x).isSome),
          front ++ ps.map (fun x =>
            match rewrite x with
            | some x' => stamp x' x
            | none => x)) := by
  intro ps
  induction ps with
  | nil =>
    intro front count _
    simp [ref_update_loop]
  | cons p ps ih =>
    intro front count h
    have hshape : front ++ p :: ps = (front ++ [p]) ++ ps := by
      rw [List.append_assoc, List.singleton_append]
    have hfront : ∀ q ∈ front, getId q ≠ getId p := by
      have h2 : (front.map getId ++
          (getId p :: ps.map getId)).Nodup := by simpa using h
      obtain ⟨-, -, hdisj⟩ := List.nodup_append.mp h2
      intro q hq heq
      exact hdisj (List.mem_map_of_mem _ hq)
        (by rw [heq]; exact List.mem_cons_self _ _)
    cases hr : rewrite p with
    | none =>
      simp only [ref_update_loop, hr]
      rw [hshape] at h ⊢
      rw [ih (front ++ [p]) count h]
      simp [List.countP_cons, hr, List.append_assoc]
    | some p' =>
      simp only [ref_update_loop, hr]
      rw [repo_update_g_mid getId stamp front ps p p' hfront]
      have h' : (((front ++ [stamp p' p]) ++ ps).map getId).Nodup := by
        have hmeq : ((front ++ [stamp p' p]) ++ ps).map getId =
            (front ++ p :: ps).map getId := by
          simp [hstamp]
        rw [hmeq]
        exact h
      rw [show front ++ stamp p' p :: ps =
          (front ++ [stamp p' p]) ++ ps by
        rw [List.append_assoc, List.singleton_append]]
      rw [ih (front ++ [stamp p' p]) (count + 1) h']
      refine Prod.ext ?_ ?_
      · simp only [List.countP_cons, hr, Option.isSome_some]
        simp
        omega
      · simp [List.append_assoc, hr]

theorem product_stamp_id (now : String) (d old : Product) :
    (product_stamp now d old).id = old.id := rfl

theorem session_stamp_id (now : String) (d old : BrewSession) :
    (session_stamp now d old).id = old.id := rfl

/-- With action `replace` and a `replacement_id` that does not resolve
in the countries table, the per-product country rewrite never fires. -/
theorem country_ref_rewrite_replace_dangling (countries : List LookupRec)
    (cname : String) (replacement_id : Option Nat)
    (hrep : find_by_id (·.id) countries (replacement_id.getD 0) = none)
    (p : Product) :
    country_ref_rewrite countries cname "replace" replacement_id p =
      none := by
  have hrm : (("replace" : String) == "remove") = false := rfl
  have hrp : (("replace" : String) == "replace") = true := rfl
  unfold country_ref_rewrite
  rcases replacement_id with _ | n
  · cases hpc : p.country <;> simp [pyTruthyNat, hrm, hrp]
  · by_cases hn : n = 0
    · cases hpc : p.country <;> simp [pyTruthyNat, hrm, hrp, hn]
    · have hfind : find_by_id (·.id) countries n = none := by
        simpa using hrep
      cases hpc : p.country <;>
        simp [pyTruthyNat, hrm, hrp, hn, hfind]

/-- C2 counterexample: the roaster endpoint does not check that
`replacement_id` exists.  With one roaster (id 1), one product
referencing it, and the dangling replacement id 999, the `replace`
action reports one updated product and repoints it to roaster 999 —
not the zero-update no-op the claim asserts. -/
theorem replace_with_dangling_id_counterexample :
    find_by_id (·.id) ([⟨1, "A", false, "", ""⟩] : List LookupRec) 999 =
      none
    ∧ update_roaster_references ([⟨1, "A", false, "", ""⟩] :
        List LookupRec)
        ([{ id := 1, roaster_id := some 1 }] : List Product) 1 "replace"
        (some 999) "T" =
        Except.ok (1,
          [{ id := 1, roaster_id := some 999, updated_at := "T" }])
    ∧ (1 : Nat) ≠ 0
    ∧ ([{ id := 1, roaster_id := some 999, updated_at := "T" }] :
        List Product) ≠ [{ id := 1, roaster_id := some 1 }] :=
  ⟨by decide, rfl, by decide, by decide⟩

/-- C2 (amended): only the country endpoint verifies `replacement_id`:
there, a non-resolving replacement updates zero products and leaves the
products table unchanged.  The roaster and grinder endpoints store a
truthy `replacement_id` unchecked: every dependent referencing the
lookup is repointed to it (dangling or not), re-stamped by `update`,
and counted as updated. -/
theorem update_references_replacement_semantics :
    (∀ (countries : List LookupRec) (products : List Product) (cid : Nat)
      (c : LookupRec) (replacement_id : Option Nat) (now : String),
      find_by_id (·.id) countries cid = some c →
      find_by_id (·.id) countries (replacement_id.getD 0) = none →
      update_country_references countries products cid "replace"
        replacement_id now = Except.ok (0, products))
    ∧ (∀ (roasters : List LookupRec) (products : List Product)
      (rid : Nat) (r : LookupRec) (R : Nat) (now : String),
      find_by_id (·.id) roasters rid = some r → R ≠ 0 →
      (products.map (·.id)).Nodup →
      update_roaster_references roasters products rid "replace" (some R)
        now = Except.ok
          (products.countP (fun p => p.roaster_id == some rid),
           products.map (fun p =>
             if p.roaster_id == some rid then
               { p with roaster_id := some R, updated_at := now }
             else p)))
    ∧ (∀ (grinders : List LookupRec) (sessions : List BrewSession)
      (gid : Nat) (g : LookupRec) (R : Nat) (now : String),
      find_by_id (·.id) grinders gid = some g → R ≠ 0 →
      (sessions.map (·.id)).Nodup →
      update_grinder_references grinders sessions gid "replace" (some R)
        now = Except.ok
          (sessions.countP (fun s => s.grinder_id == some gid),
           sessions.map (fun s =>
             if s.grinder_id == some gid then
               { s with grinder_id := some R, updated_at := now }
             else s))) := by
  refine ⟨fun countries products cid c replacement_id now h hrep => ?_,
    fun roasters products rid r R now h hR hnodup => ?_,
    fun grinders sessions gid g R now h hR hnodup => ?_⟩
  · unfold update_country_references
    rw [h]
    exact congrArg Except.ok (ref_update_loop_of_none _ _ products products
      0 fun p _ =>
        country_ref_rewrite_replace_dangling countries c.name
          replacement_id hrep p)
  · unfold update_roaster_references
    rw [h]
    have htruthy : pyTruthyNat (some R) = true := by
      simp [pyTruthyNat, hR]
    have hloop := ref_update_loop_map (·.id) (product_stamp now)
      (product_stamp_id now) (roaster_ref_rewrite rid "replace" (some R))
      products [] 0 (by simpa using hnodup)
    refine congrArg Except.ok (Eq.trans hloop ?_)
    refine Prod.ext ?_ ?_
    · simp only [Nat.zero_add]
      refine List.countP_congr fun p _ => ?_
      by_cases hm : (p.roaster_id == some rid) = true <;>
        simp [roaster_ref_rewrite, hm, htruthy]
    · simp only [List.nil_append]
      refine List.map_congr_left fun p _ => ?_
      by_cases hm : (p.roaster_id == some rid) = true <;>
        simp [roaster_ref_rewrite, hm, htruthy, product_stamp]
  · unfold update_grinder_references
    rw [h]
    have htruthy : pyTruthyNat (some R) = true := by
      simp [pyTruthyNat, hR]
    have hloop := ref_update_loop_map (·.id) (session_stamp now)
      (session_stamp_id now) (grinder_ref_rewrite gid "replace" (some R))
      sessions [] 0 (by simpa using hnodup)
    refine congrArg Except.ok (Eq.trans hloop ?_)
    refine Prod.ext ?_ ?_
    · simp only [Nat.zero_add]
      refine List.countP_congr fun s _ => ?_
      by_cases hm : (s.grinder_id == some gid) = true <;>
        simp [grinder_ref_rewrite, hm, htruthy]
    · simp only [List.nil_append]
      refine List.map_congr_left fun s _ => ?_
      by_cases hm : (s.grinder_id == some gid) = true <;>
        simp [grinder_ref_rewrite, hm, htruthy, session_stamp]

theorem update_references_replacement_semantics_witness :
    (find_by_id (·.id) ([⟨1, "A", false, "", ""⟩] : List LookupRec) 1 =
        some ⟨1, "A", false, "", ""⟩
      ∧ find_by_id (·.id) ([⟨1, "A", false, "", ""⟩] : List LookupRec)
        ((some 99 : Option Nat).getD 0) = none
      ∧ update_country_references ([⟨1, "A", false, "", ""⟩] :
          List LookupRec)
          ([{ id := 1, country := CountryRef.cscalar "A" }] :
            List Product) 1 "replace" (some 99) "T" =
          Except.ok (0, [{ id := 1, country := CountryRef.cscalar "A" }]))
    ∧ ((2 : Nat) ≠ 0
      ∧ update_roaster_references ([⟨1, "A", false, "", ""⟩] :
          List LookupRec)
          ([{ id := 1, roaster_id := some 1 }] : List Product) 1
          "replace" (some 2) "T" =
          Except.ok (1,
            [{ id := 1, roaster_id := some 2, updated_at := "T" }]))
    ∧ update_grinder_references ([⟨1, "G", false, "", ""⟩] :
        List LookupRec)
        ([{ id := 1, grinder_id := some 1 }] : List BrewSession) 1
        "replace" (some 2) "T" =
        Except.ok (1,
          [{ id := 1, grinder_id := some 2, updated_at := "T" }]) :=
  ⟨⟨by decide, by decide,
    update_references_replacement_semantics.1 _ _ 1
      ⟨1, "A", false, "", ""⟩ (some 99) "T" (by decide) (by decide)⟩,
   ⟨by decide,
    (update_references_replacement_semantics.2.1 _ _ 1
      ⟨1, "A", false, "", ""⟩ 2 "T" (by decide) (by decide)
      (by decide)).trans (congrArg Except.ok (by decide))⟩,
   (update_references_replacement_semantics.2.2 _ _ 1
      ⟨1, "G", false, "", ""⟩ 2 "T" (by decide) (by decide)
      (by decide)).trans (congrArg Except.ok (by decide))⟩

/-! ## `set_default` exclusivity (C3) -/

/-- On a present id, the stored table after `set_default` is the
pointwise re-flagging: a record's `is_default` becomes "my id is the
target". -/
theorem set_default_store_map (t : List LookupRec) (item_id : Nat)
    (h : t.any (fun item => item.id == item_id) = true) :
    set_default_store t item_id =
      t.map (fun r => { r with is_default := decide (r.id = item_id) }) := by
  unfold set_default_store set_default
  rw [if_pos h]
  show t.map _ = t.map _
  refine List.map_congr_left fun r _ => ?_
  cases r with
  | mk rid rname rdef rca rua =>
    by_cases hid : rid = item_id
    · simp [hid]
    · cases rdef <;> simp [hid]

theorem set_default_store_ids (t : List LookupRec) (item_id : Nat) :
    (set_default_store t item_id).map (·.id) = t.map (·.id) := by
  by_cases h : t.any (fun item => item.id == item_id) = true
  · rw [set_default_store_map t item_id h, List.map_map]
    exact List.map_congr_left fun r _ => rfl
  · unfold set_default_store set_default
    rw [if_neg h]

theorem set_default_store_flags (t : List LookupRec) (item_id : Nat)
    (h : item_id ∈ t.map (·.id)) :
    ∀ r ∈ set_default_store t item_id,
      r.is_default = decide (r.id = item_id) := by
  have hany : t.any (fun item => item.id == item_id) = true := by
    rw [List.any_eq_true]
    obtain ⟨x, hx, hxid⟩ := List.mem_map.mp h
    exact ⟨x, hx, by simp [hxid]⟩
  rw [set_default_store_map t item_id hany]
  intro r hr
  obtain ⟨x, hx, rfl⟩ := List.mem_map.mp hr
  simp

theorem set_default_store_count (t : List LookupRec) (item_id : Nat)
    (hnodup : (t.map (·.id)).Nodup) (hmem : item_id ∈ t.map (·.id)) :
    (set_default_store t item_id).countP (·.is_default) = 1 := by
  have hany : t.any (fun item => item.id == item_id) = true := by
    rw [List.any_eq_true]
    obtain ⟨x, hx, hxid⟩ := List.mem_map.mp hmem
    exact ⟨x, hx, by simp [hxid]⟩
  rw [set_default_store_map t item_id hany, List.countP_map]
  have h1 : List.countP
      ((fun r : LookupRec => r.is_default) ∘
        (fun r : LookupRec =>
          { r with is_default := decide (r.id = item_id) })) t =
      List.countP (fun x : Nat => x == item_id) (t.map (·.id)) := by
    rw [List.countP_map]
    exact List.countP_congr fun r _ => by simp
  rw [h1]
  have h2 : List.count item_id (t.map (·.id)) = 1 :=
    List.count_eq_one_of_mem hnodup hmem
  rw [← h2]
  rfl

/-- C3: starting from any table, after a non-empty sequence of
`set_default` calls whose ids are all present, at most one record has
`is_default = true`; and after `set_default X` then `set_default Y`
with distinct present ids, X's record carries `false` and Y's carries
`true`.  (Distinct stored ids is the data-model invariant.) -/
theorem default_exclusivity :
    (∀ (t : List LookupRec) (ids : List Nat), (t.map (·.id)).Nodup →
      ids ≠ [] → (∀ i ∈ ids, i ∈ t.map (·.id)) →
      (ids.foldl set_default_store t).countP (·.is_default) ≤ 1)
    ∧ (∀ (t : List LookupRec) (X Y : Nat), (t.map (·.id)).Nodup →
      X ∈ t.map (·.id) → Y ∈ t.map (·.id) → X ≠ Y →
      ∀ r ∈ set_default_store (set_default_store t X) Y,
        (r.id = X → r.is_default = false) ∧
        (r.id = Y → r.is_default = true)) := by
  constructor
  · intro t ids
    induction ids generalizing t with
    | nil => intro _ hne _; exact absurd rfl hne
    | cons i rest ih =>
      intro hnodup _ hmem
      by_cases hrest : rest = []
      · subst hrest
        simp only [List.foldl_cons, List.foldl_nil]
        rw [set_default_store_count t i hnodup
          (hmem i (List.mem_cons_self _ _))]
      · simp only [List.foldl_cons]
        refine ih (set_default_store t i) ?_ hrest ?_
        · rw [set_default_store_ids]; exact hnodup
        · intro j hj
          rw [set_default_store_ids]
          exact hmem j (List.mem_cons_of_mem _ hj)
  · intro t X Y _ _ hY hXY r hr
    have hflags := set_default_store_flags (set_default_store t X) Y
      (by rw [set_default_store_ids]; exact hY) r hr
    constructor
    · intro hrX
      rw [hflags]
      simp [hrX, hXY]
    · intro hrY
      rw [hflags]
      simp [hrY]

theorem default_exclusivity_witness :
    ((([⟨1, "a", false, "", ""⟩, ⟨2, "b", true, "", ""⟩] :
        List LookupRec).map (·.id)).Nodup
      ∧ (([1, 2] : List Nat) ≠ [])
      ∧ (∀ i ∈ ([1, 2] : List Nat), i ∈
        ([⟨1, "a", false, "", ""⟩, ⟨2, "b", true, "", ""⟩] :
          List LookupRec).map (·.id)))
    ∧ (([1, 2] : List Nat).foldl set_default_store
        [⟨1, "a", false, "", ""⟩, ⟨2, "b", true, "", ""⟩]).countP
        (·.is_default) ≤ 1
    ∧ (∀ r ∈ set_default_store (set_default_store
        ([⟨1, "a", false, "", ""⟩, ⟨2, "b", true, "", ""⟩] :
          List LookupRec) 1) 2,
        (r.id = 1 → r.is_default = false) ∧
        (r.id = 2 → r.is_default = true)) :=
  ⟨⟨by decide, by decide, by decide⟩,
   default_exclusivity.1 _ [1, 2] (by decide) (by decide) (by decide),
   fun r hr => default_exclusivity.2 _ 1 2 (by decide) (by decide)
     (by decide) (by decide) r hr⟩

/-! ## `get_or_create` identity (C4, C5) -/

theorem get_or_create_of_found (t : List LookupRec) (n now : String)
    (r : LookupRec) (h : find_by_name t n = some r) :
    get_or_create t n now = (r, t) := by
  unfold get_or_create
  rw [h]

theorem get_or_create_of_missing (t : List LookupRec) (n now : String)
    (h : find_by_name t n = none) :
    get_or_create t n now = lookup_create t n now := by
  unfold get_or_create
  rw [h]

/-- Two names with the same normalization are matched identically. -/
theorem find_by_name_congr (t : List LookupRec) (n₁ n₂ : String)
    (h1 : n₁ ≠ "") (h2 : n₂ ≠ "")
    (hn : normalizeName n₂ = normalizeName n₁) :
    find_by_name t n₂ = find_by_name t n₁ := by
  unfold find_by_name
  rw [if_neg h1, if_neg h2]
  simp only [hn]

/-- After a miss-and-create for a (non-empty) name, looking that name
up again finds exactly the created record. -/
theorem find_by_name_after_create (t : List LookupRec) (n now : String)
    (hne : n ≠ "") (h : find_by_name t n = none) :
    find_by_name (lookup_create t n now).2 n =
      some (lookup_create t n now).1 := by
  unfold find_by_name at h ⊢
  rw [if_neg hne] at h ⊢
  show List.find? _ (t ++ [(lookup_create t n now).1]) = _
  rw [List.find?_append, h, Option.none_or]
  refine List.find?_cons_of_pos _ ?_
  simp [lookup_create, hne]

/-- Calling `get_or_create` again with any name of the same normalized
form returns the very record of the first call and leaves the table as
the first call left it. -/
theorem get_or_create_second_call (t : List LookupRec)
    (n₁ n₂ now₁ now₂ : String) (h1 : n₁ ≠ "") (h2 : n₂ ≠ "")
    (hn : normalizeName n₂ = normalizeName n₁) :
    get_or_create (get_or_create t n₁ now₁).2 n₂ now₂ =
      ((get_or_create t n₁ now₁).1, (get_or_create t n₁ now₁).2) := by
  cases hf : find_by_name t n₁ with
  | some r =>
    rw [get_or_create_of_found t n₁ now₁ r hf]
    exact get_or_create_of_found t n₂ now₂ r
      ((find_by_name_congr t n₁ n₂ h1 h2 hn).trans hf)
  | none =>
    rw [get_or_create_of_missing t n₁ now₁ hf]
    have hfind2 : find_by_name (lookup_create t n₁ now₁).2 n₂ =
        some (lookup_create t n₁ now₁).1 :=
      (find_by_name_congr (lookup_create t n₁ now₁).2 n₁ n₂ h1 h2
        hn).trans (find_by_name_after_create t n₁ now₁ h1 hf)
    exact get_or_create_of_found _ n₂ now₂ _ hfind2

/-- C4: `get_or_create "Paper Filter"` then
`get_or_create "  paper filter  "` resolve to the same record — the
second call returns the first call's record and creates nothing (the
table is exactly what the first call left). -/
theorem get_or_create_case_whitespace_insensitive (t : List LookupRec)
    (now₁ now₂ : String) :
    (get_or_create (get_or_create t "Paper Filter" now₁).2
        "  paper filter  " now₂).1 =
      (get_or_create t "Paper Filter" now₁).1
    ∧ (get_or_create (get_or_create t "Paper Filter" now₁).2
        "  paper filter  " now₂).2 =
      (get_or_create t "Paper Filter" now₁).2 := by
  have h := get_or_create_second_call t "Paper Filter" "  paper filter  "
    now₁ now₂ (by decide) (by decide) (by decide)
  exact ⟨by rw [h], by rw [h]⟩

/-- C5 counterexample: on a table already containing a record named
"a", two `get_or_create "a"` calls return that record and the record
count stays at 1 — it does not increase by one. -/
theorem get_or_create_count_counterexample :
    ((get_or_create (get_or_create
        ([⟨1, "a", false, "", ""⟩] : List LookupRec) "a" "t1").2
        "a" "t2").2).length ≠
      ([⟨1, "a", false, "", ""⟩] : List LookupRec).length + 1 := by
  decide

/-- C5 (amended): two consecutive `get_or_create(N)` calls return
records with the same id.  The table's record count increases by
exactly one across both calls when `N` is non-empty and had no match
(case/whitespace-insensitively) beforehand; when a match already
exists the count is unchanged and both calls return the existing
record. -/
theorem get_or_create_idempotent :
    (∀ (t : List LookupRec) (n now₁ now₂ : String), n ≠ "" →
      find_by_name t n = none →
      (get_or_create (get_or_create t n now₁).2 n now₂).1 =
        (get_or_create t n now₁).1
      ∧ ((get_or_create (get_or_create t n now₁).2 n now₂).2).length =
        t.length + 1)
    ∧ (∀ (t : List LookupRec) (n now₁ now₂ : String) (r : LookupRec),
      find_by_name t n = some r →
      (get_or_create t n now₁).1 = r
      ∧ (get_or_create (get_or_create t n now₁).2 n now₂).1 = r
      ∧ ((get_or_create (get_or_create t n now₁).2 n now₂).2).length =
        t.length) := by
  constructor
  · intro t n now₁ now₂ hne hmiss
    have h := get_or_create_second_call t n n now₁ now₂ hne hne rfl
    refine ⟨by rw [h], ?_⟩
    rw [h]
    rw [get_or_create_of_missing t n now₁ hmiss]
    show (t ++ [(lookup_create t n now₁).1]).length = t.length + 1
    simp
  · intro t n now₁ now₂ r hfound
    have hne : n ≠ "" := by
      intro hcontra
      rw [hcontra] at hfound
      simp [find_by_name] at hfound
    have h := get_or_create_second_call t n n now₁ now₂ hne hne rfl
    have h1 := get_or_create_of_found t n now₁ r hfound
    refine ⟨by rw [h1], by rw [h, h1], by rw [h, h1]⟩

theorem get_or_create_idempotent_witness :
    (find_by_name ([] : List LookupRec) "a" = none
      ∧ ("a" : String) ≠ ""
      ∧ (get_or_create (get_or_create ([] : List LookupRec) "a" "t1").2
          "a" "t2").1 = (get_or_create ([] : List LookupRec) "a" "t1").1
      ∧ ((get_or_create (get_or_create ([] : List LookupRec) "a" "t1").2
          "a" "t2").2).length = ([] : List LookupRec).length + 1)
    ∧ (find_by_name ([⟨1, "a", false, "", ""⟩] : List LookupRec) "a" =
        some ⟨1, "a", false, "", ""⟩
      ∧ (get_or_create ([⟨1, "a", false, "", ""⟩] : List LookupRec)
          "a" "t1").1 = ⟨1, "a", false, "", ""⟩
      ∧ ((get_or_create (get_or_create
          ([⟨1, "a", false, "", ""⟩] : List LookupRec) "a" "t1").2
          "a" "t2").2).length =
        ([⟨1, "a", false, "", ""⟩] : List LookupRec).length) :=
  ⟨⟨by decide, by decide,
    (get_or_create_idempotent.1 [] "a" "t1" "t2" (by decide)
      (by decide)).1,
    (get_or_create_idempotent.1 [] "a" "t1" "t2" (by decide)
      (by decide)).2⟩,
   ⟨by decide,
    (get_or_create_idempotent.2 [⟨1, "a", false, "", ""⟩] "a" "t1" "t2"
      ⟨1, "a", false, "", ""⟩ (by decide)).1,
    (get_or_create_idempotent.2 [⟨1, "a", false, "", ""⟩] "a" "t1" "t2"
      ⟨1, "a", false, "", ""⟩ (by decide)).2.2⟩⟩

/-! ## Brew-session validation lemmas (C7) -/

theorem tasting_error_step_ne_nil (errs : List String)
    (fv : String × Option Int) (h : errs ≠ []) :
    tasting_error_step errs fv ≠ [] := by
  unfold tasting_error_step
  rcases fv with ⟨nm, _ | v⟩
  · exact h
  · by_cases hv : v < 1 ∨ v > 10 <;> simp [hv, h]

theorem brew_errors_foldl_ne_nil (fs : List (String × Option Int)) :
    ∀ errs, errs ≠ [] → fs.foldl tasting_error_step errs ≠ [] := by
  induction fs with
  | nil => intro _ h; exact h
  | cons fv fs ih =>
    intro errs h
    exact ih _ (tasting_error_step_ne_nil errs fv h)

theorem brew_errors_foldl_out (fs : List (String × Option Int)) :
    ∀ (errs : List String) (fv : String × Option Int) (v : Int),
      fv ∈ fs → fv.2 = some v → (v < 1 ∨ v > 10) →
      fs.foldl tasting_error_step errs ≠ [] := by
  induction fs with
  | nil => intro _ _ _ h; cases h
  | cons g fs ih =>
    intro errs fv v hmem hv hout
    rcases List.mem_cons.mp hmem with rfl | hmem'
    · simp only [List.foldl_cons]
      apply brew_errors_foldl_ne_nil
      unfold tasting_error_step
      rw [hv]
      show (if v < 1 ∨ v > 10 then
        errs ++ [fv.1 ++ " must be between 1 and 10"] else errs) ≠ []
      rw [if_pos hout]
      simp
    · simp only [List.foldl_cons]
      exact ih _ fv v hmem' hv hout

theorem brew_errors_foldl_id (fs : List (String × Option Int))
    (h : ∀ fv ∈ fs, ∀ v : Int, fv.2 = some v → 1 ≤ v ∧ v ≤ 10) :
    ∀ errs, fs.foldl tasting_error_step errs = errs := by
  induction fs with
  | nil => intro _; rfl
  | cons g fs ih =>
    intro errs
    simp only [List.foldl_cons]
    have hg : tasting_error_step errs g = errs := by
      unfold tasting_error_step
      cases hg2 : g.2 with
      | none => rfl
      | some v =>
        obtain ⟨hv1, hv2⟩ := h g (List.mem_cons_self _ _) v hg2
        show (if v < 1 ∨ v > 10 then
          errs ++ [g.1 ++ " must be between 1 and 10"] else errs) = errs
        rw [if_neg (by omega)]
    rw [hg]
    exact ih (fun fv hfv => h fv (List.mem_cons_of_mem _ hfv)) errs

theorem brew_validation_errors_ne_of_tasting (i : BrewInput)
    (fv : String × Option Int) (v : Int) (hfv : fv ∈ tasting_fields i)
    (hv : fv.2 = some v) (hout : v < 1 ∨ v > 10) :
    brew_validation_errors i ≠ [] := by
  simp only [brew_validation_errors]
  have hne := brew_errors_foldl_out (tasting_fields i) [] fv v hfv hv hout
  cases hs : i.score with
  | none => exact hne
  | some q =>
    show (if q < 1 ∨ q > 10 then
      List.foldl tasting_error_step [] (tasting_fields i) ++
        ["score must be between 1.0 and 10.0"]
      else List.foldl tasting_error_step [] (tasting_fields i)) ≠ []
    by_cases hq : q < 1 ∨ q > 10
    · rw [if_pos hq]
      simp
    · rw [if_neg hq]
      exact hne

theorem brew_validation_errors_ne_of_score (i : BrewInput) (q : ℚ)
    (hq : i.score = some q) (hout : q < 1 ∨ q > 10) :
    brew_validation_errors i ≠ [] := by
  simp only [brew_validation_errors, hq]
  show (if q < 1 ∨ q > 10 then
    List.foldl tasting_error_step [] (tasting_fields i) ++
      ["score must be between 1.0 and 10.0"]
    else List.foldl tasting_error_step [] (tasting_fields i)) ≠ []
  rw [if_pos hout]
  simp

theorem brew_validation_errors_empty (i : BrewInput)
    (hin : ∀ fv ∈ tasting_fields i, ∀ v : Int, fv.2 = some v →
      1 ≤ v ∧ v ≤ 10)
    (hsc : ∀ q : ℚ, i.score = some q → 1 ≤ q ∧ q ≤ 10) :
    brew_validation_errors i = [] := by
  simp only [brew_validation_errors]
  rw [brew_errors_foldl_id (tasting_fields i) hin []]
  cases hs : i.score with
  | none => rfl
  | some q =>
    obtain ⟨h1q, h2q⟩ := hsc q hs
    show (if q < 1 ∨ q > 10 then
      ([] : List String) ++ ["score must be between 1.0 and 10.0"]
      else []) = []
    rw [if_neg (not_or.mpr ⟨not_lt.mpr h1q, not_lt.mpr h2q⟩)]

/-- C7: a tasting field below 1 or above 10, or a score outside
1.0–10.0, makes both the create and the update handler reject with a
validation failure before any write (the sessions table is unchanged);
when every present tasting field is within 1–10 (so 10 itself is
accepted) and the score within 1.0–10.0, the create handler stores the
submitted values unchanged and the update handler stores the merged
values unchanged — never clamped. -/
theorem brew_session_score_validation :
    (∀ (sessions : List BrewSession) (i : BrewInput) (now : String)
      (fv : String × Option Int) (v : Int), fv ∈ tasting_fields i →
      fv.2 = some v → (v < 1 ∨ v > 10) →
      (∃ e, handle_batch_brew_sessions_post sessions i now =
        Except.error e)
      ∧ handle_batch_brew_sessions_post_store sessions i now = sessions)
    ∧ (∀ (sessions : List BrewSession) (i : BrewInput) (now : String)
      (q : ℚ), i.score = some q → (q < 1 ∨ q > 10) →
      (∃ e, handle_batch_brew_sessions_post sessions i now =
        Except.error e)
      ∧ handle_batch_brew_sessions_post_store sessions i now = sessions)
    ∧ (∀ (sessions : List BrewSession) (sid : Nat) (i : BrewInput)
      (now : String) (ex : BrewSession) (fv : String × Option Int)
      (v : Int), find_by_id (·.id) sessions sid = some ex →
      fv ∈ tasting_fields i → fv.2 = some v → (v < 1 ∨ v > 10) →
      (∃ e, update_brew_session sessions sid i now = Except.error e)
      ∧ update_brew_session_store sessions sid i now = sessions)
    ∧ (∀ (sessions : List BrewSession) (sid : Nat) (i : BrewInput)
      (now : String) (ex : BrewSession) (q : ℚ),
      find_by_id (·.id) sessions sid = some ex →
      i.score = some q → (q < 1 ∨ q > 10) →
      (∃ e, update_brew_session sessions sid i now = Except.error e)
      ∧ update_brew_session_store sessions sid i now = sessions)
    ∧ (∀ (sessions : List BrewSession) (i : BrewInput) (now : String),
      (∀ fv ∈ tasting_fields i, ∀ v : Int, fv.2 = some v →
        1 ≤ v ∧ v ≤ 10) →
      (∀ q : ℚ, i.score = some q → 1 ≤ q ∧ q ≤ 10) →
      ∃ r, handle_batch_brew_sessions_post sessions i now =
          Except.ok (r, sessions ++ [r])
        ∧ r.sweetness = i.sweetness ∧ r.acidity = i.acidity
        ∧ r.bitterness = i.bitterness ∧ r.body = i.body
        ∧ r.aroma = i.aroma
        ∧ r.flavor_profile_match = i.flavor_profile_match
        ∧ r.score = i.score)
    ∧ (∀ (sessions : List BrewSession) (sid : Nat) (i : BrewInput)
      (now : String) (ex : BrewSession),
      find_by_id (·.id) sessions sid = some ex →
      (∀ fv ∈ tasting_fields i, ∀ v : Int, fv.2 = some v →
        1 ≤ v ∧ v ≤ 10) →
      (∀ q : ℚ, i.score = some q → 1 ≤ q ∧ q ≤ 10) →
      ∃ u t', update_brew_session sessions sid i now =
          Except.ok (some u, t')
        ∧ u.sweetness = i.sweetness.or ex.sweetness
        ∧ u.score = i.score.or ex.score) := by
  refine ⟨fun sessions i now fv v hfv hv hout => ?_,
    fun sessions i now q hq hout => ?_,
    fun sessions sid i now ex fv v hfind hfv hv hout => ?_,
    fun sessions sid i now ex q hfind hq hout => ?_,
    fun sessions i now hin hsc => ?_,
    fun sessions sid i now ex hfind hin hsc => ?_⟩
  · have hne := brew_validation_errors_ne_of_tasting i fv v hfv hv hout
    have hpost : handle_batch_brew_sessions_post sessions i now =
        Except.error (String.intercalate "; "
          (brew_validation_errors i)) := by
      unfold handle_batch_brew_sessions_post
      rw [if_pos hne]
    exact ⟨⟨_, hpost⟩,
      by unfold handle_batch_brew_sessions_post_store; rw [hpost]⟩
  · have hne := brew_validation_errors_ne_of_score i q hq hout
    have hpost : handle_batch_brew_sessions_post sessions i now =
        Except.error (String.intercalate "; "
          (brew_validation_errors i)) := by
      unfold handle_batch_brew_sessions_post
      rw [if_pos hne]
    exact ⟨⟨_, hpost⟩,
      by unfold handle_batch_brew_sessions_post_store; rw [hpost]⟩
  · have hne := brew_validation_errors_ne_of_tasting i fv v hfv hv hout
    have hupd : update_brew_session sessions sid i now =
        Except.error (String.intercalate "; "
          (brew_validation_errors i)) := by
      simp only [update_brew_session, hfind]
      rw [if_pos hne]
    exact ⟨⟨_, hupd⟩,
      by unfold update_brew_session_store; rw [hupd]⟩
  · have hne := brew_validation_errors_ne_of_score i q hq hout
    have hupd : update_brew_session sessions sid i now =
        Except.error (String.intercalate "; "
          (brew_validation_errors i)) := by
      simp only [update_brew_session, hfind]
      rw [if_pos hne]
    exact ⟨⟨_, hupd⟩,
      by unfold update_brew_session_store; rw [hupd]⟩
  · have hempty := brew_validation_errors_empty i hin hsc
    let r : BrewSession :=
      { id := get_next_id (·.id) sessions
        grinder_id := i.grinder_id
        sweetness := i.sweetness
        acidity := i.acidity
        bitterness := i.bitterness
        body := i.body
        aroma := i.aroma
        flavor_profile_match := i.flavor_profile_match
        score := i.score
        created_at := now
        updated_at := now }
    refine ⟨r, ?_, rfl, rfl, rfl, rfl, rfl, rfl, rfl⟩
    unfold handle_batch_brew_sessions_post
    rw [if_neg (by simp [hempty])]
  · have hempty := brew_validation_errors_empty i hin hsc
    let merged : BrewSession :=
      { ex with
        sweetness := i.sweetness.or ex.sweetness
        acidity := i.acidity.or ex.acidity
        bitterness := i.bitterness.or ex.bitterness
        body := i.body.or ex.body
        aroma := i.aroma.or ex.aroma
        flavor_profile_match :=
          i.flavor_profile_match.or ex.flavor_profile_match
        score := i.score.or ex.score }
    refine ⟨session_stamp now merged ex,
      (session_update sessions sid merged now).2, ?_, rfl, rfl⟩
    simp only [update_brew_session, hfind]
    rw [if_neg (by simp [hempty])]
    refine congrArg Except.ok (Prod.ext ?_ rfl)
    have hfind' : List.find? (fun x : BrewSession => x.id == sid)
        sessions = some ex := hfind
    exact repo_update_g_found (·.id) (session_stamp now) sessions sid
      merged ex hfind'

theorem brew_session_score_validation_witness :
    (("sweetness", some (11 : Int)) ∈
      tasting_fields { sweetness := some 11 }
      ∧ ((11 : Int) < 1 ∨ (11 : Int) > 10))
    ∧ (∃ e, handle_batch_brew_sessions_post ([] : List BrewSession)
        { sweetness := some 11 } "T" = Except.error e)
    ∧ handle_batch_brew_sessions_post_store ([] : List BrewSession)
        { sweetness := some 11 } "T" = []
    ∧ (∃ e, handle_batch_brew_sessions_post ([] : List BrewSession)
        { score := some 11 } "T" = Except.error e)
    ∧ (∃ e, update_brew_session ([{ id := 1 }] : List BrewSession) 1
        { sweetness := some 0 } "T" = Except.error e)
    ∧ update_brew_session_store ([{ id := 1 }] : List BrewSession) 1
        { sweetness := some 0 } "T" = [{ id := 1 }]
    ∧ (∃ e, update_brew_session ([{ id := 1 }] : List BrewSession) 1
        { score := some 0 } "T" = Except.error e)
    ∧ (∃ r, handle_batch_brew_sessions_post ([] : List BrewSession)
        { sweetness := some 10 } "T" = Except.ok (r, [] ++ [r])
        ∧ r.sweetness = some 10)
    ∧ (∃ u t', update_brew_session ([{ id := 1 }] : List BrewSession) 1
        { sweetness := some 10 } "T" = Except.ok (some u, t')
        ∧ u.sweetness = (some (10 : Int)).or
          (({ id := 1 } : BrewSession).sweetness)) := by
  have hin10 : ∀ fv ∈ tasting_fields
      ({ sweetness := some 10 } : BrewInput), ∀ v : Int,
      fv.2 = some v → 1 ≤ v ∧ v ≤ 10 := by
    intro fv hfv v hv
    simp [tasting_fields] at hfv
    rcases hfv with h | h | h | h | h | h <;>
      (subst h; simp at hv; try omega)
  have hsc10 : ∀ q : ℚ, ({ sweetness := some 10 } : BrewInput).score =
      some q → 1 ≤ q ∧ q ≤ 10 := by
    intro q hq
    exact absurd hq (by simp)
  refine ⟨⟨by decide, by decide⟩, ?_, ?_, ?_, ?_, ?_, ?_, ?_, ?_⟩
  · exact (brew_session_score_validation.1 [] _ "T"
      ("sweetness", some 11) 11 (by decide) rfl (by decide)).1
  · exact (brew_session_score_validation.1 [] _ "T"
      ("sweetness", some 11) 11 (by decide) rfl (by decide)).2
  · exact (brew_session_score_validation.2.1 [] _ "T" 11 rfl
      (by norm_num)).1
  · exact (brew_session_score_validation.2.2.1 [{ id := 1 }] 1 _ "T"
      { id := 1 } ("sweetness", some 0) 0 (by decide) (by decide) rfl
      (by decide)).1
  · exact (brew_session_score_validation.2.2.1 [{ id := 1 }] 1 _ "T"
      { id := 1 } ("sweetness", some 0) 0 (by decide) (by decide) rfl
      (by decide)).2
  · exact (brew_session_score_validation.2.2.2.1 [{ id := 1 }] 1 _ "T"
      { id := 1 } 0 (by decide) rfl (by norm_num)).1
  · obtain ⟨r, h1, h2, -⟩ := brew_session_score_validation.2.2.2.2.1
      [] { sweetness := some 10 } "T" hin10 hsc10
    exact ⟨r, h1, h2⟩
  · have hfind : find_by_id (fun x : BrewSession => x.id)
        ([{ id := 1 }] : List BrewSession) 1 = some { id := 1 } := by
      decide
    obtain ⟨u, t', h1, h2, -⟩ := brew_session_score_validation.2.2.2.2.2
      [{ id := 1 }] 1 { sweetness := some 10 } "T" { id := 1 } hfind
      hin10 hsc10
    exact ⟨u, t', h1, h2⟩

end CoffeeJournal
